import Mathlib

/-!
# Verification of the edison-sockets TCP echo pair

Shallow embedding of `src/client.c` and `src/server.c` (a minimal TCP
echo client/server pair) and proofs about the embedded definitions.

Modelling conventions:
* C `int` results of OS calls (`socket`, `connect`, `send`, `recv`,
  `accept`) are `Int`; byte counts that the programs keep as
  non-negative totals are `Nat`.
* The OS is an oracle: each run is parameterised by the results the OS
  calls would return (a `ClientWorld` on the client side, a per-connection
  script on the server side).  The embedding consumes the oracle in
  exactly the order the C control flow issues the calls.
* Byte contents are `List Nat` (one entry per byte, each < 256 for real
  inputs; nothing below depends on the bound).
* `argv` is a `List String`; indexing past the end of the argument
  vector makes the parse yield `none` (the C code would read `argv[argc]`).
-/

namespace EdisonSockets

/-- UTF-8 encoding of one character, one `Nat` per byte (the byte-level
content of a C string literal / `argv` entry). -/
def charUtf8 (c : Char) : List Nat :=
  let n := c.toNat
  if n < 128 then [n]
  else if n < 2048 then [192 + n / 64, 128 + n % 64]
  else if n < 65536 then [224 + n / 4096, 128 + (n / 64) % 64, 128 + n % 64]
  else [240 + n / 262144, 128 + (n / 4096) % 64, 128 + (n / 64) % 64, 128 + n % 64]

/-- The bytes of a (NUL-free) C string; `strlen` is the length of this list. -/
def strBytes (s : String) : List Nat := s.data.flatMap charUtf8

/-- Model of C `atoi` for argument strings: an optional leading minus sign
followed by leading decimal digits; any other string yields 0
(`client.c` line 53, `server.c` line 65). -/
def atoiDigits : List Char → Nat → Nat
  | [], acc => acc
  | c :: cs, acc => if c.isDigit then atoiDigits cs (acc * 10 + (c.toNat - 48)) else acc

/-- C `atoi` on an argument string. -/
def atoi (s : String) : Int :=
  match s.data with
  | '-' :: cs => - (Int.ofNat (atoiDigits cs 0))
  | cs => Int.ofNat (atoiDigits cs 0)

/-! ## Argument parsing (`client.c` lines 44-55, `server.c` lines 59-67)

The C loop walks `idx` from 1 to `argc - 1`; on `--hostname` (and, for the
client, `--message`) it does `idx++; value = argv[idx];`.  We embed the
loop state as the list of arguments not yet examined plus the current
configuration.  When the flag is the last argument, the C code reads
`argv[argc]`, one past the supplied argument array: in the embedding the
lookup yields no value and the parse returns `none`. -/

/-- Client configuration variables with their initial values
(`client.c` lines 24-26). -/
structure ClientCfg where
  hostname : String := "localhost"
  port_number : Int := -1
  message : String := "hello world"
deriving Repr, DecidableEq

/-- The client's argument loop (`client.c` lines 44-55) over the arguments
after the program name. -/
def parseClientLoop : List String → ClientCfg → Option ClientCfg
  | [], cfg => some cfg
  | arg :: rest, cfg =>
    if arg = "--hostname" then
      match rest with
      | [] => none
      | v :: rest2 => parseClientLoop rest2 { cfg with hostname := v }
    else if arg = "--message" then
      match rest with
      | [] => none
      | v :: rest2 => parseClientLoop rest2 { cfg with message := v }
    else
      parseClientLoop rest { cfg with port_number := atoi arg }

/-- Server configuration variables with their initial values
(`server.c` lines 40-41). -/
structure ServerCfg where
  hostname : String := "localhost"
  port_number : Int := -1
deriving Repr, DecidableEq

/-- The server's argument loop (`server.c` lines 59-67) over the arguments
after the program name. -/
def parseServerLoop : List String → ServerCfg → Option ServerCfg
  | [], cfg => some cfg
  | arg :: rest, cfg =>
    if arg = "--hostname" then
      match rest with
      | [] => none
      | v :: rest2 => parseServerLoop rest2 { cfg with hostname := v }
    else
      parseServerLoop rest { cfg with port_number := atoi arg }

/-! ## Client transfer phase (`client.c` lines 57-147) -/

/-- Diagnostics the client writes to stderr before exiting with status 1. -/
inductive Diag where
  | socketErr
  | resolveErr
  | connectErr
  | sendErr
  | shortSend (expected actual : Int)
  | recvErr
  | shortRead (expected actual : Int)
deriving Repr, DecidableEq

/-- One iteration of the client's receive loop: the byte count passed to
`recv` (`chars_request`) and the count `recv` returned (`chars_received`). -/
structure RecvStep where
  request : Nat
  result : Int
deriving Repr, DecidableEq

/-- How the client's receive loop ended. -/
inductive RecvExit where
  /-- `total_received < message_len` became false: normal exit. -/
  | done
  /-- `recv` returned a negative count (`client.c` lines 123-126). -/
  | recvErr
  /-- `recv` returned a non-negative count different from the request
  (`client.c` lines 127-132). -/
  | shortRead
  /-- the oracle has no further `recv` results: the real program would
  block inside `recv`. -/
  | starved
deriving Repr, DecidableEq

/-- Result of running the client's receive loop. -/
structure RecvRun where
  steps : List RecvStep
  total : Nat
  exitK : RecvExit
  diags : List Diag
deriving Repr, DecidableEq

/-- The client's receive loop (`client.c` lines 109-144): `message_len` and
`rx_buffer_len` are fixed; the list holds the successive `recv` results;
the final argument is `total_received`.  Each iteration computes
`chars_remaining = message_len - total_received` and requests
`chars_remaining`, capped at `rx_buffer_len` (lines 112-119). -/
def clientRecvLoop (message_len rx_buffer_len : Nat) :
    List Int → Nat → RecvRun
  | [], total_received =>
    if total_received < message_len then ⟨[], total_received, .starved, []⟩
    else ⟨[], total_received, .done, []⟩
  | r :: rest, total_received =>
    if total_received < message_len then
      let chars_remaining := message_len - total_received
      let chars_request :=
        if chars_remaining > rx_buffer_len then rx_buffer_len else chars_remaining
      if r < 0 then
        ⟨[⟨chars_request, r⟩], total_received, .recvErr, [.recvErr]⟩
      else if r ≠ (chars_request : Int) then
        ⟨[⟨chars_request, r⟩], total_received, .shortRead,
          [.shortRead (chars_request : Int) r]⟩
      else
        let next := clientRecvLoop message_len rx_buffer_len rest
          (total_received + r.toNat)
        ⟨⟨chars_request, r⟩ :: next.steps, next.total, next.exitK, next.diags⟩
    else ⟨[], total_received, .done, []⟩

/-- The OS-call results a client run consumes, in program order. -/
structure ClientWorld where
  /-- result of `socket(AF_INET, SOCK_STREAM, 0)` (line 58). -/
  socketRes : Int
  /-- whether `gethostbyname(hostname)` returned non-NULL (line 65). -/
  resolveOk : Bool
  /-- result of `connect` (line 82). -/
  connectRes : Int
  /-- result of the single `send` call (line 91). -/
  sendRes : Int
  /-- successive results of `recv` calls (line 122). -/
  recvResults : List Int
  /-- the bytes of process memory starting at the address of the local
  variable `message` (a `char*`), i.e. at `&message`: the pointer object's
  own representation followed by adjacent stack bytes.  Line 91 passes
  `&message` as the buffer argument of `send`. -/
  memAtMessageVar : List Nat
deriving Repr, DecidableEq

/-- How a client run ended. -/
inductive ClientOutcome where
  | exited (code : Nat)
  /-- the oracle has no further `recv` results: the program would block. -/
  | blocked
deriving Repr, DecidableEq

/-- Observable behaviour of one client run. -/
structure ClientRun where
  outcome : ClientOutcome
  diags : List Diag
  /-- the byte buffers passed to `send`, in order (at most one). -/
  sendBufs : List (List Nat)
  /-- the receive-loop iterations that were performed. -/
  recvSteps : List RecvStep
  total_received : Nat
deriving Repr, DecidableEq

/-- The client driver after argument parsing (`client.c` lines 57-147):
socket creation, host resolution, connect, the single `send`, then the
receive loop.  `send` is passed `&message`, so the buffer it transmits is
`message_len` bytes of memory starting at the `message` variable itself
(line 91: `send(sockfd, &message, message_len, 0)`). -/
def clientDriver (cfg : ClientCfg) (w : ClientWorld) : ClientRun :=
  if w.socketRes < 0 then ⟨.exited 1, [.socketErr], [], [], 0⟩
  else if w.resolveOk = false then ⟨.exited 1, [.resolveErr], [], [], 0⟩
  else if w.connectRes < 0 then ⟨.exited 1, [.connectErr], [], [], 0⟩
  else
    let message_len := (strBytes cfg.message).length
    let sendBuf := w.memAtMessageVar.take message_len
    let chars_sent := w.sendRes
    if chars_sent < 0 then ⟨.exited 1, [.sendErr], [sendBuf], [], 0⟩
    else if chars_sent ≠ (message_len : Int) then
      ⟨.exited 1, [.shortSend (message_len : Int) chars_sent], [sendBuf], [], 0⟩
    else
      let rx_buffer_len := message_len
      let run := clientRecvLoop message_len rx_buffer_len w.recvResults 0
      match run.exitK with
      | .done => ⟨.exited 0, run.diags, [sendBuf], run.steps, run.total⟩
      | .recvErr => ⟨.exited 1, run.diags, [sendBuf], run.steps, run.total⟩
      | .shortRead => ⟨.exited 1, run.diags, [sendBuf], run.steps, run.total⟩
      | .starved => ⟨.blocked, run.diags, [sendBuf], run.steps, run.total⟩

/-! ## Server (`server.c`) -/

/-- `AF_INET` address family constant. -/
def AF_INET : Nat := 2

/-- The wildcard "any" local IPv4 address (`INADDR_ANY`). -/
def INADDR_ANY : Nat := 0

/-- Host-to-network byte swap on a 16-bit value; the `int` argument is
first converted to `uint16_t` by the caller's conversion (mod 2^16). -/
def htons (x : Nat) : Nat :=
  let y := x % 65536
  (y % 256) * 256 + y / 256

/-- The fields of a `struct sockaddr_in` that `start_server` populates. -/
structure SockAddrIn where
  sin_family : Nat
  sin_addr : Nat
  sin_port : Nat
deriving Repr, DecidableEq

/-- The local address `start_server` binds the listening socket to
(`server.c` lines 197-202): family `AF_INET`, address `INADDR_ANY`,
port `htons(port_number)`.  The `hostname` parameter is not consulted. -/
def startServerBindAddr (hostname : String) (port_number : Int) : SockAddrIn :=
  { sin_family := AF_INET
    sin_addr := INADDR_ANY
    sin_port := htons (port_number % 65536).toNat }

/-- The sockets the server program handles: the listening socket, and the
socket of the i-th accepted connection (counting from 0). -/
inductive Sock where
  | listener
  | conn (i : Nat)
deriving Repr, DecidableEq, BEq

/-- Events of a server run, in the order the OS calls are issued. -/
inductive Ev where
  /-- `accept` returned the i-th client connection (line 104). -/
  | acceptOk (i : Nat)
  /-- `accept` returned a negative value (line 106). -/
  | acceptFail
  /-- `recv` on a socket returned `res` (line 119). -/
  | recv (s : Sock) (res : Int)
  /-- `send` on a socket returned `res` (line 133). -/
  | send (s : Sock) (res : Int)
  /-- `close` on a socket (only `stop_server`, line 235, contains one). -/
  | close (s : Sock)
deriving Repr, DecidableEq, BEq

/-- How the echo loop over one accepted connection ended. -/
inductive EchoExit where
  /-- `recv` returned 0: orderly peer shutdown, `break` (lines 120-122). -/
  | closedByPeer
  /-- `recv` returned a negative count: `goto cleanup` (lines 123-130). -/
  | recvFatal
  /-- `send` returned a negative count: `goto cleanup` (lines 134-138). -/
  | sendFatal
  /-- the oracle has no further results: the real program would block. -/
  | starved
deriving Repr, DecidableEq

/-- A connection's oracle script: for each echo-loop iteration, the result
the OS returns for `recv` and (if reached) for `send`. -/
abbrev ConnScript := List (Int × Int)

/-- The server's echo loop over the i-th accepted connection
(`server.c` lines 117-139).  Each iteration reads `chars_received` from
the script; 0 breaks out, negative is fatal; otherwise `send` is issued
and only a negative `chars_sent` is fatal (line 134) — the value of a
non-negative `chars_sent` is not compared with `chars_received`. -/
def echoLoop (i : Nat) : ConnScript → EchoExit × List Ev
  | [] => (.starved, [])
  | (chars_received, chars_sent) :: rest =>
    if chars_received = 0 then
      (.closedByPeer, [.recv (.conn i) chars_received])
    else if chars_received < 0 then
      (.recvFatal, [.recv (.conn i) chars_received])
    else if chars_sent < 0 then
      (.sendFatal, [.recv (.conn i) chars_received, .send (.conn i) chars_sent])
    else
      let next := echoLoop i rest
      (next.1, .recv (.conn i) chars_received :: .send (.conn i) chars_sent :: next.2)

/-- How a server run ended. -/
inductive ServerOutcome where
  /-- `cleanup` ran (`stop_server` closed the listener) and `main`
  returned `code`. -/
  | exited (code : Nat)
  /-- the oracle has no further connections: the server is blocked in
  `accept`, still listening. -/
  | waitingAccept
  /-- the oracle ended mid-connection: the server is blocked in `recv`. -/
  | blockedInConn
deriving Repr, DecidableEq

/-- The server's accept loop (`server.c` lines 92-149) starting at the
i-th accepted connection.  Each element of the script is an `accept`
result: `none` for a negative `accept` return (fatal, lines 106-110),
`some cs` for an accepted connection whose echo loop consumes `cs`.
On `recvFatal`/`sendFatal`/`acceptFail` the `goto cleanup` path runs
`stop_server` — one `close` of the listening socket — and `main` returns 1.
The accepted connection's socket is never passed to `close`. -/
def serverLoop (i : Nat) : List (Option ConnScript) → ServerOutcome × List Ev
  | [] => (.waitingAccept, [])
  | none :: _ => (.exited 1, [.acceptFail, .close .listener])
  | some cs :: rest =>
    let e := echoLoop i cs
    match e.1 with
    | .closedByPeer =>
      let next := serverLoop (i + 1) rest
      (next.1, .acceptOk i :: e.2 ++ next.2)
    | .recvFatal => (.exited 1, .acceptOk i :: e.2 ++ [.close .listener])
    | .sendFatal => (.exited 1, .acceptOk i :: e.2 ++ [.close .listener])
    | .starved => (.blockedInConn, .acceptOk i :: e.2)

/-- A full server run, starting from the first `accept`. -/
def serverRun (script : List (Option ConnScript)) : ServerOutcome × List Ev :=
  serverLoop 0 script

/-! ## Helper lemmas -/

/-- The cap-at-buffer-size idiom of `client.c` lines 116-119 computes a
minimum. -/
theorem trunc_eq_min (a b : Nat) : (if a > b then b else a) = min a b := by
  rcases le_or_lt a b with h | h
  · rw [if_neg (by omega), Nat.min_eq_left h]
  · rw [if_pos h, Nat.min_eq_right (by omega)]

/-- The echo loop never issues a `close` call. -/
theorem echoLoop_close_free (i : Nat) (cs : ConnScript) (s : Sock) :
    Ev.close s ∉ (echoLoop i cs).2 := by
  induction cs with
  | nil => simp [echoLoop]
  | cons hd rest ih =>
    obtain ⟨r, w⟩ := hd
    by_cases h0 : r = 0
    · simp [echoLoop, h0]
    · by_cases h1 : r < 0
      · simp [echoLoop, h0, h1]
      · by_cases h2 : w < 0
        · simp [echoLoop, h0, h1, h2]
        · simp [echoLoop, h0, h1, h2, ih]

/-- The server's accept loop never issues a `close` call on an accepted
connection's socket (the only `close` in the program is `stop_server`'s
close of the listening socket). -/
theorem serverLoop_conn_close_free (script : List (Option ConnScript)) (i j : Nat) :
    Ev.close (Sock.conn j) ∉ (serverLoop i script).2 := by
  induction script generalizing i with
  | nil => simp [serverLoop]
  | cons hd rest ih =>
    cases hd with
    | none => simp [serverLoop]
    | some cs =>
      intro hmem
      cases he : (echoLoop i cs).1 with
      | closedByPeer =>
        simp only [serverLoop, he, List.mem_cons, List.mem_append] at hmem
        rcases hmem with (h | h) | h
        · simp at h
        · exact echoLoop_close_free i cs _ h
        · exact ih (i + 1) h
      | recvFatal =>
        simp only [serverLoop, he, List.mem_cons, List.mem_append] at hmem
        rcases hmem with (h | h) | h
        · simp at h
        · exact echoLoop_close_free i cs _ h
        · simp at h
      | sendFatal =>
        simp only [serverLoop, he, List.mem_cons, List.mem_append] at hmem
        rcases hmem with (h | h) | h
        · simp at h
        · exact echoLoop_close_free i cs _ h
        · simp at h
      | starved =>
        simp only [serverLoop, he, List.mem_cons] at hmem
        rcases hmem with h | h
        · simp at h
        · exact echoLoop_close_free i cs _ h

/-- Once `total_received` has reached `message_len`, the receive loop
performs no iteration. -/
theorem clientRecvLoop_done_of_ge (ml cap t : Nat) (results : List Int)
    (h : ¬ t < ml) : clientRecvLoop ml cap results t = ⟨[], t, .done, []⟩ := by
  cases results <;> simp [clientRecvLoop, h]

/-- Receive-loop step, `recv` negative: one final step, error exit. -/
theorem clientRecvLoop_cons_recvErr (ml cap t : Nat) (r : Int) (rest : List Int)
    (h : t < ml) (h1 : r < 0) :
    clientRecvLoop ml cap (r :: rest) t =
      ⟨[⟨min (ml - t) cap, r⟩], t, .recvErr, [.recvErr]⟩ := by
  simp only [clientRecvLoop]
  rw [if_pos h, if_pos h1, trunc_eq_min]

/-- Receive-loop step, `recv` non-negative but unequal to the request:
one final step, short-read exit, the remaining oracle unconsumed. -/
theorem clientRecvLoop_cons_shortRead (ml cap t : Nat) (r : Int) (rest : List Int)
    (h : t < ml) (h1 : ¬ r < 0) (h2 : r ≠ ((min (ml - t) cap : Nat) : Int)) :
    clientRecvLoop ml cap (r :: rest) t =
      ⟨[⟨min (ml - t) cap, r⟩], t, .shortRead,
        [.shortRead ((min (ml - t) cap : Nat) : Int) r]⟩ := by
  simp only [clientRecvLoop]
  rw [if_pos h, if_neg h1, trunc_eq_min, if_pos h2]

/-- Receive-loop step, `recv` returned exactly the request: the loop
records the step and continues on the remaining oracle. -/
theorem clientRecvLoop_cons_continue (ml cap t : Nat) (r : Int) (rest : List Int)
    (h : t < ml) (h2 : r = ((min (ml - t) cap : Nat) : Int)) :
    clientRecvLoop ml cap (r :: rest) t =
      ⟨⟨min (ml - t) cap, r⟩ ::
          (clientRecvLoop ml cap rest (t + min (ml - t) cap)).steps,
        (clientRecvLoop ml cap rest (t + min (ml - t) cap)).total,
        (clientRecvLoop ml cap rest (t + min (ml - t) cap)).exitK,
        (clientRecvLoop ml cap rest (t + min (ml - t) cap)).diags⟩ := by
  have hnn : (0 : Int) ≤ ((min (ml - t) cap : Nat) : Int) := Int.natCast_nonneg _
  have h1 : ¬ r < 0 := by rw [h2]; omega
  have htn : r.toNat = min (ml - t) cap := by rw [h2]; exact Int.toNat_natCast _
  simp only [clientRecvLoop]
  rw [if_pos h, if_neg h1, trunc_eq_min, if_neg (not_not_intro h2), htn]

/-- If the receive loop exits normally starting from a total that does
not exceed `message_len`, the final total is exactly `message_len`. -/
theorem clientRecvLoop_done_total (ml cap : Nat) (results : List Int) (t : Nat)
    (ht : t ≤ ml) (hd : (clientRecvLoop ml cap results t).exitK = .done) :
    (clientRecvLoop ml cap results t).total = ml := by
  induction results generalizing t with
  | nil =>
    by_cases h : t < ml
    · simp [clientRecvLoop, h] at hd
    · rw [clientRecvLoop_done_of_ge ml cap t [] h]
      show t = ml
      omega
  | cons r rest ih =>
    by_cases h : t < ml
    · by_cases h1 : r < 0
      · rw [clientRecvLoop_cons_recvErr ml cap t r rest h h1] at hd
        simp at hd
      · by_cases h2 : r = ((min (ml - t) cap : Nat) : Int)
        · rw [clientRecvLoop_cons_continue ml cap t r rest h h2] at hd ⊢
          have hle : min (ml - t) cap ≤ ml - t := Nat.min_le_left _ _
          exact ih (t + min (ml - t) cap) (by omega) hd
        · rw [clientRecvLoop_cons_shortRead ml cap t r rest h h1 h2] at hd
          simp at hd
    · rw [clientRecvLoop_done_of_ge ml cap t (r :: rest) h]
      show t = ml
      omega

/-- When the receive loop ends in a short read, the reported diagnostic
carries the expected request and the actual non-negative result of the
failing call, and nothing else was reported. -/
theorem clientRecvLoop_shortRead_diag (ml cap : Nat) (results : List Int)
    (t : Nat) (hd : (clientRecvLoop ml cap results t).exitK = .shortRead) :
    ∃ req r, 0 ≤ r ∧ r ≠ ((req : Nat) : Int) ∧
      (clientRecvLoop ml cap results t).diags =
        [.shortRead ((req : Nat) : Int) r] := by
  induction results generalizing t with
  | nil => by_cases h : t < ml <;> simp [clientRecvLoop, h] at hd
  | cons r rest ih =>
    by_cases h : t < ml
    · by_cases h1 : r < 0
      · rw [clientRecvLoop_cons_recvErr ml cap t r rest h h1] at hd
        simp at hd
      · by_cases h2 : r = ((min (ml - t) cap : Nat) : Int)
        · rw [clientRecvLoop_cons_continue ml cap t r rest h h2] at hd ⊢
          exact ih (t + min (ml - t) cap) hd
        · rw [clientRecvLoop_cons_shortRead ml cap t r rest h h1 h2]
          exact ⟨min (ml - t) cap, r, by omega, h2, rfl⟩
    · rw [clientRecvLoop_done_of_ge ml cap t (r :: rest) h] at hd
      simp at hd

/-! ## Claims -/

/-- C8: the address `start_server` binds the listening socket to has the
wildcard ("any") local address and is identical for any two hostname
arguments — the hostname does not influence the bound address
(`server.c` lines 197-202: `sin_addr.s_addr = INADDR_ANY`, the `hostname`
parameter is never read). -/
theorem bind_address_wildcard_ignores_hostname (h1 h2 : String) (p : Int) :
    startServerBindAddr h1 p = startServerBindAddr h2 p ∧
    (startServerBindAddr h1 p).sin_addr = INADDR_ANY ∧
    (startServerBindAddr h1 p).sin_family = AF_INET :=
  ⟨rfl, rfl, rfl⟩

/-- C9: when a value-taking option flag (`--hostname` for either program,
`--message` for the client) is the last remaining argument, the parse
loop increments the index past the final argument and reads `argv[argc]`;
in the embedding the lookup yields no value, so the parse returns `none`
regardless of the configuration accumulated so far. -/
theorem flag_as_last_argument_reads_past_argv :
    (∀ cfg : ClientCfg, parseClientLoop ["--hostname"] cfg = none) ∧
    (∀ cfg : ClientCfg, parseClientLoop ["--message"] cfg = none) ∧
    (∀ cfg : ServerCfg, parseServerLoop ["--hostname"] cfg = none) := by
  refine ⟨fun cfg => ?_, fun cfg => ?_, fun cfg => ?_⟩ <;> rfl

/-- Witness for C8 at concrete inputs: two different hostnames, port
9000. -/
theorem bind_address_wildcard_witness :
    startServerBindAddr "localhost" 9000 = startServerBindAddr "0.0.0.0" 9000 ∧
    (startServerBindAddr "localhost" 9000).sin_addr = INADDR_ANY ∧
    (startServerBindAddr "localhost" 9000).sin_family = AF_INET :=
  bind_address_wildcard_ignores_hostname "localhost" "0.0.0.0" 9000

/-- Witness for C9 at the initial configurations. -/
theorem flag_as_last_argument_witness :
    parseClientLoop ["--hostname"] {} = none ∧
    parseClientLoop ["--message"] {} = none ∧
    parseServerLoop ["--hostname"] {} = none :=
  ⟨flag_as_last_argument_reads_past_argv.1 {},
    flag_as_last_argument_reads_past_argv.2.1 {},
    flag_as_last_argument_reads_past_argv.2.2 {}⟩

/-- The concrete run used to exhibit the `send(sockfd, &message, ...)` bug:
`--hostname localhost --message "hello world" 9000`, all OS calls
succeeding, `send` and `recv` both reporting 11 bytes, and the memory at
`&message` holding an 8-byte little-endian pointer representation
(0x12345678) followed by 3 adjacent stack bytes. -/
def c1World : ClientWorld :=
  { socketRes := 3
    resolveOk := true
    connectRes := 0
    sendRes := 11
    recvResults := [11]
    memAtMessageVar := [120, 86, 52, 18, 0, 0, 0, 0, 65, 66, 67] }

/-- C1 (code bug): `client.c` line 91 passes `&message` — the address of
the `char*` variable — as the buffer argument of `send`, so the 11 bytes
handed to `send` are the pointer object's representation plus adjacent
stack bytes, not the bytes of `"hello world"`; the length checks still
pass, so the run exits 0 while having sent the wrong bytes. -/
theorem client_send_passes_pointer_bytes :
    (clientDriver { port_number := 9000 } c1World).outcome = .exited 0 ∧
    (clientDriver { port_number := 9000 } c1World).sendBufs =
      [[120, 86, 52, 18, 0, 0, 0, 0, 65, 66, 67]] ∧
    [120, 86, 52, 18, 0, 0, 0, 0, 65, 66, 67] ≠ strBytes "hello world" := by
  decide

/-- C2 counterexample: a connection on which `recv` returns 5 bytes but
`send` reports only 3 written (a non-negative short write) does not
terminate the server: the echo loop proceeds to the next `recv`, the
peer closes, and the server returns to `accept` — it never exits with a
nonzero status. -/
theorem server_short_write_not_fatal :
    serverRun [some [(5, 3), (0, 0)]] =
      (.waitingAccept,
        [.acceptOk 0, .recv (.conn 0) 5, .send (.conn 0) 3, .recv (.conn 0) 0]) ∧
    (serverRun [some [(5, 3), (0, 0)]]).1 ≠ ServerOutcome.exited 1 := by
  decide

/-- C2 as amended: in the server's echo loop only a negative `send`
return is fatal (whole process exits 1 through cleanup); a non-negative
`send` count is never compared with the received count, so a short write
is undetected and the loop simply continues (`server.c` lines 133-138). -/
theorem server_send_error_fatal_short_write_undetected
    (i : Nat) (r w : Int) (rest : ConnScript)
    (conns : List (Option ConnScript)) (hr : 0 < r) :
    (w < 0 →
      echoLoop i ((r, w) :: rest) =
        (.sendFatal, [.recv (.conn i) r, .send (.conn i) w]) ∧
      serverLoop i (some ((r, w) :: rest) :: conns) =
        (.exited 1, [.acceptOk i, .recv (.conn i) r, .send (.conn i) w,
          .close .listener])) ∧
    (0 ≤ w →
      echoLoop i ((r, w) :: rest) =
        ((echoLoop i rest).1,
          .recv (.conn i) r :: .send (.conn i) w :: (echoLoop i rest).2)) := by
  have h0 : ¬ (r = 0) := by omega
  have h1 : ¬ (r < 0) := by omega
  constructor
  · intro hw
    have he : echoLoop i ((r, w) :: rest) =
        (.sendFatal, [.recv (.conn i) r, .send (.conn i) w]) := by
      simp [echoLoop, h0, h1, hw]
    exact ⟨he, by simp [serverLoop, he]⟩
  · intro hw
    have h2 : ¬ (w < 0) := by omega
    simp [echoLoop, h0, h1, h2]

/-- Witness for C2's amended theorem at a concrete input: received 5,
`send` returned -1. -/
theorem server_send_error_fatal_witness :
    echoLoop 0 [(5, -1), (0, 0)] =
      (.sendFatal, [.recv (.conn 0) 5, .send (.conn 0) (-1)]) ∧
    serverLoop 0 [some [(5, -1), (0, 0)]] =
      (.exited 1, [.acceptOk 0, .recv (.conn 0) 5, .send (.conn 0) (-1),
        .close .listener]) :=
  (server_send_error_fatal_short_write_undetected 0 5 (-1) [(0, 0)] []
    (by decide)).1 (by decide)

/-- C3 (code bug): the accepted per-client socket is never closed —
`close` appears only in `stop_server` for the listening socket.  In a
concrete run serving two clients, the trace between the end of client 0's
echo loop and the second `accept` contains no `close` of client 0's
socket; in general, no server run ever emits a `close` of any accepted
connection's socket. -/
theorem accepted_socket_never_closed :
    (serverRun [some [(4, 4), (0, 0)], some [(0, 0)]]).2 =
      [.acceptOk 0, .recv (.conn 0) 4, .send (.conn 0) 4, .recv (.conn 0) 0,
        .acceptOk 1, .recv (.conn 1) 0] ∧
    (∀ (i j : Nat) (script : List (Option ConnScript)),
      Ev.close (Sock.conn j) ∉ (serverLoop i script).2) := by
  refine ⟨by decide, fun i j script => serverLoop_conn_close_free script i j⟩

/-- C4: in the echo loop a zero-byte read breaks out and the driver
returns to `accept` with the listening socket still open (the trace
continues with the next accept and no intervening `close`); a negative
read result takes the `goto cleanup` path: the listening socket is closed
and the process exits with status 1 — in neither case is any further
echoing performed on that connection. -/
theorem zero_read_next_accept_negative_read_fatal
    (i : Nat) (w r : Int) (rest : ConnScript)
    (conns : List (Option ConnScript)) (hr : r < 0) :
    serverLoop i (some ((0, w) :: rest) :: conns) =
      ((serverLoop (i + 1) conns).1,
        .acceptOk i :: .recv (.conn i) 0 :: (serverLoop (i + 1) conns).2) ∧
    serverLoop i (some ((r, w) :: rest) :: conns) =
      (.exited 1, [.acceptOk i, .recv (.conn i) r, .close .listener]) := by
  have e0 : echoLoop i (((0 : Int), w) :: rest) =
      (.closedByPeer, [.recv (.conn i) 0]) := by
    simp [echoLoop]
  have h0 : ¬ (r = 0) := by omega
  have e1 : echoLoop i ((r, w) :: rest) = (.recvFatal, [.recv (.conn i) r]) := by
    simp [echoLoop, h0, hr]
  exact ⟨by simp [serverLoop, e0], by simp [serverLoop, e1]⟩

/-- Witness for C4 at a concrete input: first connection reads 0 (orderly
shutdown) and the server serves a second client; a connection whose read
returns -1 ends the process with status 1 after closing the listener. -/
theorem zero_read_next_accept_negative_read_fatal_witness :
    serverLoop 0 [some [(0, 7), (9, 9)], some [(0, 0)]] =
      ((serverLoop 1 [some [(0, 0)]]).1,
        .acceptOk 0 :: .recv (.conn 0) 0 :: (serverLoop 1 [some [(0, 0)]]).2) ∧
    serverLoop 0 [some [(-1, 7), (9, 9)], some [(0, 0)]] =
      (.exited 1, [.acceptOk 0, .recv (.conn 0) (-1), .close .listener]) :=
  zero_read_next_accept_negative_read_fatal 0 7 (-1) [(9, 9)] [some [(0, 0)]]
    (by decide)

/-- C5: any short transfer is fatal for the client and never retried.
If `send` returns a non-negative count different from the message length,
the client reports the expected vs. actual counts and exits 1 with no
`recv` call issued (`client.c` lines 96-103); if any `recv` call returns
a non-negative count different from the count requested in that call, the
loop stops at that step — the remaining oracle is never consumed — and
the driver exits 1 reporting the expected vs. actual counts
(`client.c` lines 127-132). -/
theorem client_short_transfer_fatal (cfg : ClientCfg) (w : ClientWorld)
    (hsock : 0 ≤ w.socketRes) (hres : w.resolveOk = true)
    (hconn : 0 ≤ w.connectRes) :
    (0 ≤ w.sendRes → w.sendRes ≠ ((strBytes cfg.message).length : Int) →
      clientDriver cfg w =
        ⟨.exited 1,
          [.shortSend ((strBytes cfg.message).length : Int) w.sendRes],
          [w.memAtMessageVar.take (strBytes cfg.message).length], [], 0⟩) ∧
    (∀ (cap total : Nat) (r : Int) (rest : List Int),
      total < (strBytes cfg.message).length → ¬ r < 0 →
      r ≠ ((min ((strBytes cfg.message).length - total) cap : Nat) : Int) →
      clientRecvLoop (strBytes cfg.message).length cap (r :: rest) total =
        ⟨[⟨min ((strBytes cfg.message).length - total) cap, r⟩], total,
          .shortRead,
          [.shortRead ((min ((strBytes cfg.message).length - total) cap : Nat) :
            Int) r]⟩) ∧
    (w.sendRes = ((strBytes cfg.message).length : Int) →
      (clientRecvLoop (strBytes cfg.message).length
          (strBytes cfg.message).length w.recvResults 0).exitK = .shortRead →
      (clientDriver cfg w).outcome = .exited 1 ∧
      ∃ (req : Nat) (r : Int), 0 ≤ r ∧ r ≠ ((req : Nat) : Int) ∧
        (clientDriver cfg w).diags = [.shortRead ((req : Nat) : Int) r]) := by
  have hs : ¬ w.socketRes < 0 := by omega
  have hc : ¬ w.connectRes < 0 := by omega
  refine ⟨?_, ?_, ?_⟩
  · intro h0 hne
    have hs2 : ¬ w.sendRes < 0 := by omega
    simp [clientDriver, hs, hres, hc, hs2, hne]
  · intro cap total r rest hlt h1 hne
    exact clientRecvLoop_cons_shortRead _ cap total r rest hlt h1 hne
  · intro hsend hexit
    obtain ⟨req, r, hr0, hrne, hdiag⟩ :=
      clientRecvLoop_shortRead_diag (strBytes cfg.message).length
        (strBytes cfg.message).length w.recvResults 0 hexit
    have hs2 : ¬ w.sendRes < 0 := by rw [hsend]; omega
    have hlen0 : ¬ ((strBytes cfg.message).length : Int) < 0 := by omega
    refine ⟨?_, req, r, hr0, hrne, ?_⟩
    · simp [clientDriver, hs, hres, hc, hs2, hsend, hexit, hlen0]
    · simp [clientDriver, hs, hres, hc, hs2, hsend, hexit, hdiag, hlen0]

/-- Witness for C5 at a concrete input: message `"hello world"`
(11 bytes), `send` returned 5: exit 1, the short-send diagnostic with
expected 11 / actual 5, and no receive step performed. -/
theorem client_short_transfer_fatal_witness :
    clientDriver {} ⟨3, true, 0, 5, [], [1, 2, 3]⟩ =
      ⟨.exited 1, [.shortSend 11 5], [[1, 2, 3]], [], 0⟩ :=
  (client_short_transfer_fatal {} ⟨3, true, 0, 5, [], [1, 2, 3]⟩ (by decide) rfl
    (by decide)).1 (by decide) (by decide)

/-- C6: with a zero-length message the client's receive loop performs
zero iterations regardless of the oracle, and a run whose earlier calls
succeed exits immediately with status 0 and
`total_received = 0 = message_len`. -/
theorem empty_message_zero_recv_iterations (cfg : ClientCfg) (w : ClientWorld)
    (hmsg : cfg.message = "") (hsock : 0 ≤ w.socketRes)
    (hres : w.resolveOk = true) (hconn : 0 ≤ w.connectRes)
    (hsend : w.sendRes = 0) :
    (∀ (cap : Nat) (results : List Int),
      clientRecvLoop 0 cap results 0 = ⟨[], 0, .done, []⟩) ∧
    (clientDriver cfg w).outcome = .exited 0 ∧
    (clientDriver cfg w).recvSteps = [] ∧
    (clientDriver cfg w).total_received = 0 ∧
    (strBytes cfg.message).length = 0 := by
  have hloop : ∀ (cap : Nat) (results : List Int),
      clientRecvLoop 0 cap results 0 = ⟨[], 0, .done, []⟩ := fun cap results =>
    clientRecvLoop_done_of_ge 0 cap 0 results (by omega)
  have hs : ¬ w.socketRes < 0 := by omega
  have hc : ¬ w.connectRes < 0 := by omega
  have hempty : strBytes "" = [] := rfl
  refine ⟨hloop, ?_⟩
  simp [clientDriver, hmsg, hempty, hs, hres, hc, hsend, hloop]

/-- Witness for C6 at a concrete input: empty message, successful socket
/ resolution / connect / zero-byte send, a pending `recv` result that is
never consumed. -/
theorem empty_message_zero_recv_iterations_witness :
    clientRecvLoop 0 7 [(5 : Int)] 0 = ⟨[], 0, .done, []⟩ ∧
    (clientDriver { message := "" } ⟨3, true, 0, 0, [(5 : Int)], [9]⟩).outcome =
      .exited 0 ∧
    (clientDriver { message := "" } ⟨3, true, 0, 0, [(5 : Int)], [9]⟩).recvSteps =
      [] ∧
    (clientDriver { message := "" }
      ⟨3, true, 0, 0, [(5 : Int)], [9]⟩).total_received = 0 ∧
    (strBytes ({ message := "" } : ClientCfg).message).length = 0 := by
  have h := empty_message_zero_recv_iterations { message := "" }
    ⟨3, true, 0, 0, [(5 : Int)], [9]⟩ rfl (by decide) rfl (by decide) rfl
  exact ⟨h.1 7 [(5 : Int)], h.2⟩

/-- C7: in the client's receive loop (whose buffer capacity is
`message_len`, `client.c` line 107) every iteration requests exactly
`min(remaining, capacity)` bytes; a successful iteration strictly
decreases the remaining count; and a loop that exits normally from a
total not exceeding `message_len` ends with total received equal to
`message_len` — the count of bytes sent. -/
theorem recv_loop_requests_min_and_remaining_decreases
    (message_len total totalA : Nat) (r : Int) (rest results : List Int)
    (h : total < message_len) :
    (clientRecvLoop message_len message_len (r :: rest) total).steps.head? =
      some ⟨min (message_len - total) message_len, r⟩ ∧
    (¬ r < 0 → r = ((min (message_len - total) message_len : Nat) : Int) →
      message_len - (total + r.toNat) < message_len - total) ∧
    (totalA ≤ message_len →
      (clientRecvLoop message_len message_len results totalA).exitK = .done →
      (clientRecvLoop message_len message_len results totalA).total =
        message_len) := by
  refine ⟨?_, ?_, ?_⟩
  · by_cases h1 : r < 0
    · rw [clientRecvLoop_cons_recvErr _ _ _ _ _ h h1]
      rfl
    · by_cases h2 : r = ((min (message_len - total) message_len : Nat) : Int)
      · rw [clientRecvLoop_cons_continue _ _ _ _ _ h h2]
        rfl
      · rw [clientRecvLoop_cons_shortRead _ _ _ _ _ h h1 h2]
        rfl
  · intro h1 h2
    have hm : min (message_len - total) message_len = message_len - total :=
      Nat.min_eq_left (by omega)
    rw [hm] at h2
    have htn : r.toNat = message_len - total := by
      rw [h2]; exact Int.toNat_natCast _
    omega
  · intro hA hdone
    exact clientRecvLoop_done_total _ _ _ _ hA hdone

/-- Witness for C7 at a concrete input: message length 11, first call
requests `min(11, 11) = 11`, a full read of 11 makes the remaining count
drop from 11 to 0, and the loop ends with total 11. -/
theorem recv_loop_requests_min_witness :
    (clientRecvLoop 11 11 [(11 : Int)] 0).steps.head? =
      some ⟨min (11 - 0) 11, 11⟩ ∧
    (11 : Nat) - (0 + (11 : Int).toNat) < 11 - 0 ∧
    (clientRecvLoop 11 11 [(11 : Int)] 0).total = 11 := by
  have h := recv_loop_requests_min_and_remaining_decreases 11 0 0 11 []
    [(11 : Int)] (by decide)
  exact ⟨h.1, h.2.1 (by decide) (by decide), h.2.2 (by decide) (by decide)⟩

/-- C10: the receive buffer capacity equals the message length
(`client.c` line 107), so the first iteration requests the entire
message; hence a run of the loop on a nonzero-length message that exits
normally performed exactly one `recv` call, and that call requested the
whole message. -/
theorem nonzero_message_success_single_recv (message_len : Nat)
    (results : List Int) (hpos : 0 < message_len)
    (hdone : (clientRecvLoop message_len message_len results 0).exitK =
      .done) :
    (clientRecvLoop message_len message_len results 0).steps.length = 1 ∧
    (clientRecvLoop message_len message_len results 0).steps.map
      (fun st => st.request) = [message_len] := by
  cases results with
  | nil => simp [clientRecvLoop, hpos] at hdone
  | cons r rest =>
    by_cases h1 : r < 0
    · rw [clientRecvLoop_cons_recvErr _ _ _ _ _ (by omega) h1] at hdone
      simp at hdone
    · by_cases h2 : r = ((min (message_len - 0) message_len : Nat) : Int)
      · rw [clientRecvLoop_cons_continue _ _ _ _ _ (by omega) h2] at hdone ⊢
        have hmin : min (message_len - 0) message_len = message_len := by
          rw [Nat.sub_zero, Nat.min_self]
        rw [hmin] at hdone ⊢
        rw [clientRecvLoop_done_of_ge message_len message_len
          (0 + message_len) rest (by omega)]
        exact ⟨rfl, rfl⟩
      · rw [clientRecvLoop_cons_shortRead _ _ _ _ _ (by omega) h1 h2] at hdone
        simp at hdone

/-- Witness for C10 at a concrete input: message length 11, a single
`recv` result of 11: the successful run performed exactly one call,
requesting all 11 bytes. -/
theorem nonzero_message_success_single_recv_witness :
    (clientRecvLoop 11 11 [(11 : Int)] 0).steps.length = 1 ∧
    (clientRecvLoop 11 11 [(11 : Int)] 0).steps.map
      (fun st => st.request) = [11] :=
  nonzero_message_success_single_recv 11 [(11 : Int)] (by decide) (by decide)

end EdisonSockets
